import Mathlib

set_option autoImplicit false

/-
Verification development for the OpenAPI-generator analyzers of this
repository:

  plugins/openapi-generator/skills/openapi-generator/scripts/fastapi-analyzer.py
  plugins/openapi-generator/skills/openapi-generator/scripts/flask-analyzer.py
  plugins/openapi-generator/skills/openapi-generator/scripts/spring-analyzer.py

The Python sources are shallowly embedded below: pure functions become Lean
functions, the AST-visitor state becomes explicit state passing, and the
per-file try/except becomes `Except`.  Python dicts (which preserve insertion
order and overwrite in place) are modelled as association lists with an
order-preserving upsert.
-/

/-! ## Python constant values (`ast.Constant`) -/

/-- A Python literal constant as carried by `ast.Constant.value`. -/
inductive PyConst where
  | str (s : String)
  | int (n : Int)
  | bool (b : Bool)
  | none
deriving DecidableEq

/-- Python truthiness of a constant (`if value:`). -/
def pyTruthy : PyConst → Bool
  | .str s => !(s == "")
  | .int n => !(n == 0)
  | .bool b => b
  | .none => false

/-- Python `str()` rendering of a constant, as used by f-strings. -/
def pyStr : PyConst → String
  | .str s => s
  | .int n => toString n
  | .bool true => "True"
  | .bool false => "False"
  | .none => "None"

/-- Truthiness of an optional constant (`if not description ...`). -/
def pyTruthyO : Option PyConst → Bool
  | some v => pyTruthy v
  | Option.none => false

/-! ## Python expression fragment (`ast.expr`)

Only the node shapes inspected by the analyzers are modelled: `Constant`,
`Name`, `Attribute`, `List`, `Subscript` (with the Python-3.9 direct `slice`
expression) and `Call`.  A `Call`'s keywords are `(arg, value)` pairs, with
`arg = none` for a `**kwargs` splat. -/

inductive PyExpr where
  | constant (v : PyConst)
  | name (id : String)
  | attr (value : PyExpr) (attrName : String)
  | listE (elts : List PyExpr)
  | subscript (value : PyExpr) (slice : PyExpr)
  | call (func : PyExpr) (args : List PyExpr) (keywords : List (Option String × PyExpr))

/-- An `ast.arg`: argument name plus optional type annotation (field
`annotation` in the Python AST, shortened here to `ann`). -/
structure PyArg where
  arg : String
  ann : Option PyExpr

/-- A decorator expression together with its source line (`decorator.lineno`). -/
structure PyDecorator where
  expr : PyExpr
  lineno : Nat

/-- An `ast.FunctionDef`: the fields read by the analyzers.  `defaults` are the
default-value expressions of the trailing arguments, as in `ast.arguments`. -/
structure PyFunctionDef where
  name : String
  lineno : Nat
  args : List PyArg
  defaults : List PyExpr
  decoratorList : List PyDecorator
  returns : Option PyExpr

/-- Statements the FastAPI visitor reacts to: function and class definitions.
Other module-level statements contribute nothing and are omitted. -/
inductive PyStmt where
  | funcDef (f : PyFunctionDef)
  | classDef (name : String) (decorators : List PyDecorator) (body : List PyStmt)

/-- A parsed module plus the raw file content split on newlines
(`self.content.split('\n')`), used for docstring extraction. -/
structure PyModule where
  body : List PyStmt
  contentLines : List String

/-- One input file of an analyzer run: its path and the outcome of
`ast.parse` (a `SyntaxError` message when parsing failed). -/
structure PyFile where
  path : String
  parsed : Except String PyModule

/-! ## Small string helpers (kernel-reducible stand-ins for `str` methods) -/

/-- Python `str.lower()` (ASCII). -/
def strLower (s : String) : String := ⟨s.toList.map Char.toLower⟩

/-- Python `str.upper()` (ASCII). -/
def strUpper (s : String) : String := ⟨s.toList.map Char.toUpper⟩

/-- Boolean prefix test on character lists. -/
def listPrefixOf : List Char → List Char → Bool
  | [], _ => true
  | _ :: _, [] => false
  | a :: as, b :: bs => a == b && listPrefixOf as bs

/-- Boolean contiguous-sublist test on character lists. -/
def listInfixOf (needle : List Char) : List Char → Bool
  | [] => needle.isEmpty
  | b :: bs => listPrefixOf needle (b :: bs) || listInfixOf needle bs

/-- Python `needle in hay` substring containment. -/
def strContains (hay needle : String) : Bool :=
  listInfixOf needle.toList hay.toList

/-- Python `path.replace('/', '-')` (single-character replacement). -/
def replaceSlashes (s : String) : String :=
  ⟨s.toList.map (fun c => if c = '/' then '-' else c)⟩

/-- A `\w` word character of the analyzer regexes (ASCII alphanumeric or
underscore; the analyzed inputs are ASCII). -/
def isWordChar (c : Char) : Bool := c.isAlphanum || c == '_'

/-! ## Ordered association lists (Python `dict` with insertion order) -/

/-- First-match lookup (`d[k]` / `k in d`). -/
def alistFind? {α : Type} (k : String) : List (String × α) → Option α
  | [] => Option.none
  | (k₁, v) :: t => if k₁ = k then some v else alistFind? k t

/-- Order-preserving insert-or-overwrite (`d[k] = v`): an existing key keeps
its position and gets the new value, a new key is appended at the end. -/
def alistUpsert {α : Type} (k : String) (v : α) : List (String × α) → List (String × α)
  | [] => [(k, v)]
  | (k₁, v₁) :: t => if k₁ = k then (k, v) :: t else (k₁, v₁) :: alistUpsert k v t

/-- One iteration of the `generate_openapi` aggregation loop shared by all
three analyzers:

    if path_key not in paths: paths[path_key] = {}
    paths[path_key][method] = operation
-/
def addOp {α : Type} (paths : List (String × List (String × α))) (p m : String) (op : α) :
    List (String × List (String × α)) :=
  let cur := (alistFind? p paths).getD []
  alistUpsert p (alistUpsert m op cur) paths

/-- The full aggregation loop of `generate_openapi`: fold the endpoint stream
(each entry is `(path, method-lowercase, operation)`) into the nested
`paths` mapping. -/
def buildPaths {α : Type} (xs : List (String × String × α)) :
    List (String × List (String × α)) :=
  xs.foldl (fun acc t => addOp acc t.1 t.2.1 t.2.2) []

/-! ## The Flask path-placeholder regex

`flask-analyzer.py` converts and scans Flask path templates with the pattern
`<(\w+):?(\w+)?>` (lines 221 and 225):

    path_params = re.findall(r'<(\w+):?(\w+)?>', endpoint['path'])
    converted_path = re.sub(r'<(\w+):?(\w+)?>', r'{\2}', endpoint['path'])

The backtracking behaviour of that pattern at a position starting with `<` is:
the first group greedily takes the maximal word run after `<`; a match then
succeeds exactly when the run is nonempty and is followed either directly by
`>` (second group unmatched, substituted as the empty string) or by `:`, a
(possibly empty) word run and `>`.  `flaskMatchAt` is that matcher;
`flaskSubAux`/`flaskFindAux` are the left-to-right scan of `re.sub` and
`re.findall`, written with an explicit fuel (the input length bounds the
number of scan steps) so that they reduce in the kernel. -/

/-- Try to match `<(\w+):?(\w+)?>` where `rest` is the text following a `<`.
Returns `(group1, group2, remainder)` on success; an unmatched second group is
returned as `[]` (Python substitutes `''` for it).  The first group is the
maximal word run; the match closes either directly with `>`, or with `:`, a
maximal (possibly empty) word run and `>`. -/
def flaskMatchAt (rest : List Char) : Option (List Char × List Char × List Char) :=
  if (rest.takeWhile isWordChar).isEmpty then Option.none
  else if (rest.dropWhile isWordChar).head? = some '>' then
    some (rest.takeWhile isWordChar, [], (rest.dropWhile isWordChar).tail)
  else if (rest.dropWhile isWordChar).head? = some ':' then
    if (((rest.dropWhile isWordChar).tail).dropWhile isWordChar).head? = some '>' then
      some (rest.takeWhile isWordChar,
        ((rest.dropWhile isWordChar).tail).takeWhile isWordChar,
        (((rest.dropWhile isWordChar).tail).dropWhile isWordChar).tail)
    else Option.none
  else Option.none

/-- The scan of `re.sub(r'<(\w+):?(\w+)?>', r'{\2}', s)`: at each position try
the pattern; on a match emit `{group2}` and continue after the match, else copy
one character.  `fuel ≥ length of the input` makes the fuel case unreachable. -/
def flaskSubAux : Nat → List Char → List Char
  | 0, s => s
  | _ + 1, [] => []
  | fuel + 1, c :: rest =>
    if c = '<' then
      match flaskMatchAt rest with
      | some (_, w2, r) => '\x7b' :: (w2 ++ '\x7d' :: flaskSubAux fuel r)
      | Option.none => c :: flaskSubAux fuel rest
    else c :: flaskSubAux fuel rest

/-- `re.sub(r'<(\w+):?(\w+)?>', r'{\2}', s)` on a character list. -/
def subL (s : List Char) : List Char := flaskSubAux s.length s

/-- The path-placeholder normalization of the Flask analyzer: conversion of the
native `<type:name>` / `<name>` dialect to `{name}` (the `converted_path`
computation of `generate_openapi`, line 225). -/
def pathNormalize (s : String) : String := ⟨subL s.toList⟩

/-- The scan of `re.findall(r'<(\w+):?(\w+)?>', s)`: same traversal as the
substitution, collecting `(group1, group2)` pairs. -/
def flaskFindAux : Nat → List Char → List (List Char × List Char)
  | 0, _ => []
  | _ + 1, [] => []
  | fuel + 1, c :: rest =>
    if c = '<' then
      match flaskMatchAt rest with
      | some (w1, w2, r) => (w1, w2) :: flaskFindAux fuel r
      | Option.none => flaskFindAux fuel rest
    else flaskFindAux fuel rest

/-- `re.findall(r'<(\w+):?(\w+)?>', s)` as `(type, name)` string pairs. -/
def flaskFindAll (s : String) : List (String × String) :=
  (flaskFindAux s.toList.length s.toList).map (fun p => (⟨p.1⟩, ⟨p.2⟩))

/-! ## Canonical schema / parameter / operation records

These mirror the Python dicts built by the analyzers.  Optional dict keys that
are only inserted conditionally become `Option` fields. -/

/-- The schema dicts built by `_parse_type_annotation` (FastAPI) and the Flask
parameter schemas: `{'type': t}` optionally extended with `'items'`,
`'nullable': True` and `'default'`. -/
inductive TypeSchema where
  | node (type : String) (items : Option TypeSchema) (nullable : Bool)
      (default : Option PyConst)

/-- A parameter dict `{'name', 'in', 'required', 'schema'}`.  The `in` key is
a Lean keyword and is named `inLoc` here. -/
structure ApiParam where
  name : String
  inLoc : String
  required : Bool
  schema : TypeSchema

/-- The `info` object of the emitted document. -/
structure ApiInfo where
  title : String
  version : String
  description : String

/-! ## Flask analyzer: `generate_openapi` (flask-analyzer.py, lines 200-253)

The Flask endpoint dicts are built by `FlaskVisitor.visit_FunctionDef`; the
keys read by `generate_openapi` are modelled as a record.  `description` can
be `None` (a function without docstring), and `endpoint.get('description', '')`
still returns that `None` because the key itself is present. -/

structure FlaskEndpoint where
  method : String
  path : String
  file : String
  line : Nat
  function : String
  blueprint : Option String
  summary : String
  description : Option String

/-- A Flask operation dict.  `parameters` is only inserted when the path
contains placeholders (`if params: operation['parameters'] = params`). -/
structure FlaskOperation where
  summary : String
  description : Option String
  operationId : String
  response200Description : String
  parameters : Option (List ApiParam)

/-- `_flask_type_to_openapi` (flask-analyzer.py, lines 256-266). -/
def flaskTypeToOpenapi (flaskType : String) : String :=
  let t := strLower flaskType
  if t = "string" then "string"
  else if t = "int" then "integer"
  else if t = "float" then "number"
  else if t = "path" then "string"
  else if t = "uuid" then "string"
  else if t = "any" then "string"
  else "string"

/-- The parameter list extracted from the Flask path placeholders
(lines 221-235).  `param_type` is the first regex group, which is always
nonempty for a match; the `if param_type else 'string'` guard is kept anyway. -/
def flaskPathParams (path : String) : List ApiParam :=
  (flaskFindAll path).map fun p =>
    { name := p.2
      inLoc := "path"
      required := true
      schema := .node (if p.1 == "" then "string" else flaskTypeToOpenapi p.1)
        Option.none false Option.none }

/-- The operation dict built for one Flask endpoint (lines 209-238).  The
`converted_path` of line 225 (`pathNormalize`) is computed and then never used
by the source; the unused binding is kept to mirror it. -/
def flaskOperationOf (e : FlaskEndpoint) : FlaskOperation :=
  let _converted := pathNormalize e.path
  let params := flaskPathParams e.path
  { summary := e.summary
    description := e.description
    operationId := strLower e.method ++ replaceSlashes e.path
    response200Description := "Successful response"
    parameters := if params.isEmpty then Option.none else some params }

/-- The default `info` object of the Flask analyzer. -/
def flaskDefaultInfo : ApiInfo :=
  { title := "Flask API", version := "1.0.0", description := "Generated from Flask code" }

/-- The document returned by the Flask `generate_openapi`. -/
structure FlaskDoc where
  openapi : String
  info : ApiInfo
  paths : List (String × List (String × FlaskOperation))

/-- `generate_openapi` of flask-analyzer.py: aggregate every endpoint into
`paths[path][method.lower()]`, keyed by the RAW endpoint path (`path_key`,
line 205). -/
def flaskGenerateOpenapi (info : Option ApiInfo) (endpoints : List FlaskEndpoint) : FlaskDoc :=
  { openapi := "3.0.0"
    info := info.getD flaskDefaultInfo
    paths := buildPaths (endpoints.map fun e =>
      (e.path, strLower e.method, flaskOperationOf e)) }

/-! ## FastAPI analyzer (fastapi-analyzer.py)

The `FastAPIVisitor` walks a module; route decorators produce endpoint dicts.
`endpoint['path']` stores the raw `ast.Constant` value, so it is a `PyConst`
here (a non-string literal is stored verbatim by `_parse_route_decorator`). -/

/-- The HTTP-verb names recognized by `_get_route_decorator` (lines 136-141). -/
def routeVerbs : List String :=
  ["get", "post", "put", "delete", "patch", "options", "head", "trace"]

/-- `_get_route_decorator` (lines 129-144): the first decorator that is a call
of a bare name or trailing attribute matching an HTTP verb. -/
def getRouteDecorator (f : PyFunctionDef) : Option PyDecorator :=
  f.decoratorList.find? fun d =>
    match d.expr with
    | .call (.attr _ a) _ _ => routeVerbs.contains a
    | .call (.name i) _ _ => routeVerbs.contains i
    | _ => false

/-- Strip characters satisfying `p` from both ends (one `str.strip(...)` call). -/
def trimChars (p : Char → Bool) (s : String) : String :=
  ⟨((s.toList.dropWhile p).reverse.dropWhile p).reverse⟩

/-- The quote-stripping chain `line.strip().strip('"').strip("'")` of
`_extract_docstring` (line 339). -/
def stripDocLine (l : String) : String :=
  trimChars (· == '\x27') (trimChars (· == '"') (trimChars Char.isWhitespace l))

/-- `_extract_docstring` (lines 332-340): scan the ten lines from index
`lineno` for a triple quote and return that line stripped. -/
def extractDocstring (lines : List String) (lineno : Nat) : Option String :=
  if lineno < lines.length then
    (((lines.drop lineno).take 10).find? fun l =>
      strContains l "\x22\x22\x22" || strContains l ⟨['\x27', '\x27', '\x27']⟩).map stripDocLine
  else Option.none

/-- The tuple returned by `_parse_route_decorator`. -/
structure RouteInfo where
  method : String
  path : PyConst
  summary : Option PyConst
  description : Option PyConst
  tags : List PyConst

/-- `_parse_route_decorator` (lines 146-184).  The path defaults to `'/'` and
is replaced by the first positional argument's value exactly when that
argument is an `ast.Constant` (of any type).  Keyword assignments happen only
for constant (`summary`, `description`) or list (`tags`) values; a later
duplicate keyword overwrites an earlier one.  When neither a truthy summary
nor a truthy description was supplied, the docstring is looked up. -/
def parseRouteDecorator (lines : List String) (d : PyDecorator) : RouteInfo :=
  match d.expr with
  | .call func args kws =>
    let method := match func with
      | .attr _ a => strUpper a
      | .name i => strUpper i
      | _ => ""
    let path : PyConst := match args with
      | .constant v :: _ => v
      | _ => .str "/"
    let meta := kws.foldl (fun acc kw =>
      match kw with
      | (some "summary", .constant v) => (some v, acc.2.1, acc.2.2)
      | (some "description", .constant v) => (acc.1, some v, acc.2.2)
      | (some "tags", .listE elts) =>
        (acc.1, acc.2.1, elts.filterMap fun el =>
          match el with
          | .constant v => some v
          | _ => Option.none)
      | _ => acc)
      ((Option.none : Option PyConst), (Option.none : Option PyConst), ([] : List PyConst))
    let summary := meta.1
    let description :=
      if !pyTruthyO meta.2.1 && !pyTruthyO summary then
        (extractDocstring lines d.lineno).map PyConst.str
      else meta.2.1
    { method, path, summary, description, tags := meta.2.2 }
  | _ => { method := "", path := .str "/", summary := Option.none,
           description := Option.none, tags := [] }

/-- `_parse_type_annotation` (lines 238-265): the closed primitive table for
`ast.Name`, `List[T]` to an array schema, `Optional[T]` to the inner schema
with `'nullable': True` merged in, everything else `{'type': 'string'}`. -/
def parseTypeAnn : PyExpr → TypeSchema
  | .name id =>
    .node (if id == "str" then "string"
      else if id == "int" then "integer"
      else if id == "float" then "number"
      else if id == "bool" then "boolean"
      else if id == "list" then "array"
      else if id == "dict" then "object"
      else "string") Option.none false Option.none
  | .subscript (.name "List") slice =>
    .node "array" (some (parseTypeAnn slice)) false Option.none
  | .subscript (.name "Optional") slice =>
    match parseTypeAnn slice with
    | .node t i _ dflt => .node t i true dflt
  | _ => .node "string" Option.none false Option.none

/-- `param['schema']['default'] = default_val.value`. -/
def schemaSetDefault (s : TypeSchema) (v : PyConst) : TypeSchema :=
  match s with
  | .node t i n _ => .node t i n (some v)

/-- Python `==` between a `str` and an `ast.arg` node.  The dict built on
lines 223-224, `dict(zip(node.args.args[-len(node.args.defaults):],
node.args.defaults))`, has the `ast.arg` NODES as keys, while the membership
test on line 225 is `arg.arg in defaults` with the string `arg.arg`.
`ast.arg` inherits identity-based equality, so the comparison is always
false: the default-value branch of `_extract_parameters` is dead code. -/
def pyArgEqStr (_ : PyArg) (_ : String) : Bool := false

/-- The `defaults` dict of `_extract_parameters` (lines 223-224): the trailing
arguments zipped with their default expressions (`args[-0:]` is the whole
list, but zipping with the empty defaults list still gives an empty dict). -/
def defaultsDict (f : PyFunctionDef) : List (PyArg × PyExpr) :=
  (f.args.drop (f.args.length - f.defaults.length)).zip f.defaults

/-- `arg.arg in defaults` (line 225). -/
def argInDefaults (f : PyFunctionDef) (name : String) : Bool :=
  (defaultsDict f).any fun kv => pyArgEqStr kv.1 name

/-- `defaults[arg.arg]` (line 227; only reachable from the dead branch). -/
def defaultsLookup (f : PyFunctionDef) (name : String) : Option PyExpr :=
  ((defaultsDict f).find? fun kv => pyArgEqStr kv.1 name).map (·.2)

/-- The path-placeholder test of `_extract_parameters` (lines 208-216): some
call decorator with arguments whose first argument is a string constant
containing `{arg}`.  (Python would raise a `TypeError` at the `in` test for a
non-string constant, aborting the file's analysis; no analyzed corpus in the
claims contains one, and the shape is not modelled.) -/
def hasPathPlaceholder (f : PyFunctionDef) (name : String) : Bool :=
  f.decoratorList.any fun d =>
    match d.expr with
    | .call _ (a0 :: _) _ =>
      match a0 with
      | .constant (.str s) => strContains s ("\x7b" ++ name ++ "\x7d")
      | _ => false
    | _ => false

/-- The parameter dict built for one non-`self`/`cls` argument by
`_extract_parameters` (lines 201-234): `in`/first `required` write from the
placeholder test; the annotation overwrites the schema; then the (dead, see
`pyArgEqStr`) defaults test runs, whose else-branch sets `required = True`. -/
def paramOfArg (f : PyFunctionDef) (a : PyArg) : ApiParam :=
  let inPath := hasPathPlaceholder f a.arg
  let required₀ := inPath
  let schema₀ := match a.ann with
    | some annEx => parseTypeAnn annEx
    | Option.none => .node "string" Option.none false Option.none
  let required :=
    if argInDefaults f a.arg then false
    else if !(a.arg == "self") && !(a.arg == "cls") then true
    else required₀
  let schema :=
    if argInDefaults f a.arg then
      match defaultsLookup f a.arg with
      | some (.constant v) => schemaSetDefault schema₀ v
      | _ => schema₀
    else schema₀
  { name := a.arg, inLoc := if inPath then "path" else "query",
    required := required, schema := schema }

/-- `_extract_parameters` (lines 193-236): every argument except `self` and
`cls` becomes a parameter. -/
def extractParameters (f : PyFunctionDef) : List ApiParam :=
  f.args.filterMap fun a =>
    if a.arg == "self" || a.arg == "cls" then Option.none
    else some (paramOfArg f a)

/-- The `responses` dict of `_extract_responses` (lines 267-291): a single
`'200'` entry whose `content` schema comes from the return annotation. -/
structure FResponses where
  description : String
  content : Option TypeSchema

/-- `_extract_responses`. -/
def extractResponses (f : PyFunctionDef) : FResponses :=
  { description := "Successful Response", content := f.returns.map parseTypeAnn }

/-- The request-body dict of `_extract_request_body` (lines 293-311). -/
structure FRequestBody where
  schemaRef : String
  required : Bool

/-- `_extract_request_body`: the first non-`self`/`cls` argument annotated
with a bare name becomes a `$ref` request body. -/
def extractRequestBody (f : PyFunctionDef) : Option FRequestBody :=
  (f.args.find? fun a =>
    match a.ann with
    | some (.name _) => !(a.arg == "self") && !(a.arg == "cls")
    | _ => false).map fun a =>
    { schemaRef := "#/components/schemas/" ++
        (match a.ann with
          | some (.name i) => i
          | _ => "")
      required := true }

/-- One FastAPI endpoint dict (visit_FunctionDef, lines 93-106).  `security`
is always `[]`: `_extract_security` never appends (lines 313-325); the
visitor's `schemas` stay empty as well, `_extract_pydantic_models` is `pass`. -/
structure FEndpoint where
  method : String
  path : PyConst
  file : String
  line : Nat
  function : String
  summary : Option PyConst
  description : Option PyConst
  tags : List PyConst
  parameters : List ApiParam
  responses : FResponses
  requestBody : Option FRequestBody
  security : List String

/-- Build the endpoint dict for a routed function. -/
def mkEndpoint (lines : List String) (filePath : String) (f : PyFunctionDef)
    (d : PyDecorator) : FEndpoint :=
  let ri := parseRouteDecorator lines d
  { method := ri.method, path := ri.path, file := filePath, line := f.lineno,
    function := f.name, summary := ri.summary, description := ri.description,
    tags := ri.tags, parameters := extractParameters f,
    responses := extractResponses f, requestBody := extractRequestBody f,
    security := [] }

/-- Python truthiness of `self.current_class` (an optional string). -/
def pyTruthyStrO : Option String → Bool
  | some s => !(s == "")
  | Option.none => false

/-- The visitor state: `self.endpoints`, `self.router_prefix` (initially the
empty string, overwritten with whatever constant the `prefix=` keyword
carries, and never read when endpoints are built) and `self.current_class`. -/
structure VState where
  endpoints : List FEndpoint
  routerPref : PyConst
  currentClass : Option String

/-- The initial visitor state. -/
def initVState : VState :=
  { endpoints := [], routerPref := .str "", currentClass := Option.none }

/-- `_extract_router_prefix` applied to a `Call` node (lines 186-191): the
last constant-valued `prefix=` keyword wins. -/
def extractRouterPref (cur : PyConst) (kws : List (Option String × PyExpr)) : PyConst :=
  kws.foldl (fun acc kw =>
    match kw with
    | (some "prefix", .constant v) => v
    | _ => acc) cur

mutual

/-- `visit_FunctionDef` / `visit_ClassDef` (lines 82-127).  A routed function
inside a (truthy-named) class calls `self._extract_router_prefix(node)` on the
`FunctionDef` node, which has no `keywords` attribute: that `AttributeError`
propagates out of the visit (and is caught per file by `_analyze_file`).
`visit_ClassDef` scans the class decorators for a `router(...)` call and
stores its `prefix=`; the stored prefix is never used afterwards. -/
def visitStmt (lines : List String) (filePath : String) (st : VState) :
    PyStmt → Except String VState
  | .funcDef f =>
    match getRouteDecorator f with
    | some d =>
      if pyTruthyStrO st.currentClass then
        Except.error "AttributeError: FunctionDef object has no attribute keywords"
      else
        Except.ok { st with endpoints := st.endpoints ++ [mkEndpoint lines filePath f d] }
    | Option.none => Except.ok st
  | .classDef cname decs body =>
    let pref := decs.foldl (fun acc d =>
      match d.expr with
      | .call (.name "router") _ kws => extractRouterPref acc kws
      | _ => acc) st.routerPref
    match visitStmts lines filePath { st with currentClass := some cname, routerPref := pref } body with
    | Except.ok st₂ => Except.ok { st₂ with currentClass := st.currentClass }
    | Except.error e => Except.error e

/-- Depth-first visit of a statement list (`generic_visit`). -/
def visitStmts (lines : List String) (filePath : String) (st : VState) :
    List PyStmt → Except String VState
  | [] => Except.ok st
  | s :: rest =>
    match visitStmt lines filePath st s with
    | Except.ok st₁ => visitStmts lines filePath st₁ rest
    | Except.error e => Except.error e

end

/-- Visit one parsed module and return the collected endpoint facts. -/
def visitModule (filePath : String) (m : PyModule) : Except String (List FEndpoint) :=
  (visitStmts m.contentLines filePath initVState m.body).map (·.endpoints)

/-- `_analyze_file` (lines 51-67): a parse failure or a visitor exception is
caught, a warning is printed, and the file contributes zero facts; otherwise
its endpoints are appended after the whole visit succeeded. -/
def fastapiAnalyzeFile (acc : List FEndpoint) (file : PyFile) : List FEndpoint :=
  match file.parsed with
  | .error _ => acc
  | .ok m =>
    match visitModule file.path m with
    | .error _ => acc
    | .ok es => acc ++ es

/-- `FastAPIAnalyzer.analyze` over an ordered file list (the `schemas` and
`security_schemes` of the result stay empty, see `FEndpoint`). -/
def fastapiAnalyze (files : List PyFile) : List FEndpoint :=
  files.foldl fastapiAnalyzeFile []

/-! ## FastAPI analyzer: `generate_openapi` (fastapi-analyzer.py, lines 343-384) -/

/-- A FastAPI operation dict (lines 352-369).  `parameters`, `requestBody`,
`tags` and `security` are inserted only when truthy. -/
structure FOperation where
  summary : String
  description : Option PyConst
  operationId : String
  responses : FResponses
  parameters : Option (List ApiParam)
  requestBody : Option FRequestBody
  tags : Option (List PyConst)
  security : Option (List String)

/-- Build the operation for one endpooint whose path rendered to the string
`pathStr`.  `endpoint.get('summary') or f"{method} {path}"` falls back on any
falsy summary. -/
def fastapiOperationOf (pathStr : String) (e : FEndpoint) : FOperation :=
  let fallback := e.method ++ " " ++ pathStr
  { summary := match e.summary with
      | some v => if pyTruthy v then pyStr v else fallback
      | Option.none => fallback
    description := e.description
    operationId := strLower e.method ++ replaceSlashes pathStr
    responses := e.responses
    parameters := if e.parameters.isEmpty then Option.none else some e.parameters
    requestBody := e.requestBody
    tags := if e.tags.isEmpty then Option.none else some e.tags
    security := if e.security.isEmpty then Option.none else some e.security }

/-- The default `info` object of the FastAPI analyzer. -/
def fastapiDefaultInfo : ApiInfo :=
  { title := "API", version := "1.0.0", description := "Generated from FastAPI code" }

/-- The document returned by the FastAPI `generate_openapi`. -/
structure FDoc where
  openapi : String
  info : ApiInfo
  paths : List (String × List (String × FOperation))

/-- `generate_openapi` of fastapi-analyzer.py.  A non-string endpoint path
raises an `AttributeError` at `endpoint['path'].replace('/', '-')` (line 355)
before any document is returned; that crash is modelled as `none`. -/
def fastapiGenerateOpenapi (info : Option ApiInfo) (endpoints : List FEndpoint) :
    Option FDoc :=
  let xs? : Option (List (String × String × FOperation)) :=
    endpoints.mapM fun e =>
      match e.path with
      | .str s => some (s, strLower e.method, fastapiOperationOf s e)
      | _ => Option.none
  match xs? with
  | some xs =>
    some { openapi := "3.0.0", info := info.getD fastapiDefaultInfo, paths := buildPaths xs }
  | Option.none => Option.none

/-! ## Spring analyzer (spring-analyzer.py)

Only the parts reached by the claims are embedded: the base-path composition
of `_parse_endpoint_annotation` (lines 140-144) and the parameter extraction
of `_parse_method_signature` (lines 160-187). -/

/-- `class_level['base_path'].rstrip('/')`: strip ALL trailing slashes. -/
def rstripSlashes (s : String) : String :=
  ⟨(s.toList.reverse.dropWhile (· == '/')).reverse⟩

/-- The path composition of `_parse_endpoint_annotation`:

    full_path = path
    if class_level.get('base_path'):
        base = class_level['base_path'].rstrip('/')
        full_path = base + path

An absent or empty (falsy) base path leaves the method path unchanged. -/
def springFullPath (basePath : Option String) (path : String) : String :=
  match basePath with
  | some b => if b == "" then path else rstripSlashes b ++ path
  | Option.none => path

/-- Split on whitespace dropping empty words (Python `str.split()`),
accumulating the current word reversed. -/
def splitWsGo : List Char → List Char → List String
  | [], acc => if acc.isEmpty then [] else [⟨acc.reverse⟩]
  | c :: t, acc =>
    if c.isWhitespace then
      if acc.isEmpty then splitWsGo t [] else (⟨acc.reverse⟩ : String) :: splitWsGo t []
    else splitWsGo t (c :: acc)

/-- `' '.join(signature.split())` (line 163): whitespace normalization. -/
def normalizeWs (s : String) : String :=
  String.intercalate " " (splitWsGo s.toList [])

/-- `re.search(r'\(([^)]*)\)', signature)` (line 176): the text between the
first `(` and the next `)`; no match when either bracket is missing. -/
def extractParenGroup (s : String) : Option String :=
  match s.toList.dropWhile (fun c => !(c == '(')) with
  | '(' :: t =>
    match t.dropWhile (fun c => !(c == ')')) with
    | ')' :: _ => some ⟨t.takeWhile (fun c => !(c == ')'))⟩
    | _ => Option.none
  | _ => Option.none

/-- One attempt of the pattern `@?(\w+(?:<[^>]+>)?)\s+(\w+)` (line 179) at a
fixed position: an optional `@`, a nonempty word run optionally followed by a
`<...>` generic suffix (first group), mandatory whitespace, a nonempty word
run (second group).  The regex backtracking never rescues a failed arm here:
shortening the first word run only exposes another word character, which can
match neither `\s` nor the end of the generic group. -/
def javaAttempt (s : List Char) : Option ((String × String) × List Char) :=
  let s₁ := match s with
    | '@' :: t => t
    | _ => s
  let w1 := s₁.takeWhile isWordChar
  let r1 := s₁.dropWhile isWordChar
  if w1.isEmpty then Option.none
  else
    let gen : List Char × List Char := match r1 with
      | '<' :: t =>
        let inner := t.takeWhile (fun c => !(c == '>'))
        match t.dropWhile (fun c => !(c == '>')) with
        | '>' :: rest => if inner.isEmpty then ([], r1) else ('<' :: (inner ++ ['>']), rest)
        | _ => ([], r1)
      | _ => ([], r1)
    let ws := gen.2.takeWhile Char.isWhitespace
    let r3 := gen.2.dropWhile Char.isWhitespace
    if ws.isEmpty then Option.none
    else
      let w2 := r3.takeWhile isWordChar
      let r4 := r3.dropWhile isWordChar
      if w2.isEmpty then Option.none
      else some ((⟨w1 ++ gen.1⟩, ⟨w2⟩), r4)

/-- The `re.findall` scan for the parameter pattern: try a match at every
position, continuing after each match. -/
def javaFindAux : Nat → List Char → List (String × String)
  | 0, _ => []
  | _ + 1, [] => []
  | fuel + 1, c :: rest =>
    match javaAttempt (c :: rest) with
    | some (pair, r) => pair :: javaFindAux fuel r
    | Option.none => javaFindAux fuel rest

/-- `re.findall(r'@?(\w+(?:<[^>]+>)?)\s+(\w+)', params_str)`. -/
def javaFindAll (s : String) : List (String × String) :=
  javaFindAux s.toList.length s.toList

/-- A Spring parameter fact `{'name': ..., 'type': ...}`. -/
structure JavaParam where
  type : String
  name : String

/-- The filter list of line 181.  These are framework carrier TYPE names, but
the source compares them against the parameter NAME (`param_name`). -/
def carrierNames : List String :=
  ["Model", "ModelMap", "HttpServletRequest", "HttpServletResponse"]

/-- The parameter extraction of `_parse_method_signature` (lines 160-186):
join the first three lines, normalize whitespace, take the first
parenthesized group, scan it for type/name pairs, and keep those whose NAME
is not in `carrierNames`.  (The independent return-type extraction of
lines 171-173 feeds only the response synthesis and is not modelled.) -/
def parseMethodSignatureParams (lines : List String) : List JavaParam :=
  let signature := normalizeWs (String.intercalate " " (lines.take 3))
  match extractParenGroup signature with
  | Option.none => []
  | some paramsStr =>
    (javaFindAll paramsStr).filterMap fun p =>
      if carrierNames.contains p.2 then Option.none
      else some { type := p.1, name := p.2 }

/-! ## Concrete example inputs used by counterexamples and witnesses -/

/-- An empty FastAPI responses dict entry. -/
def exResponsesEmpty : FResponses :=
  { description := "Successful Response", content := Option.none }

/-- First declaration of `GET /ping` (earlier file). -/
def exPingA : FEndpoint :=
  { method := "GET", path := .str "/ping", file := "a.py", line := 1,
    function := "ping_a", summary := some (.str "first declaration"),
    description := Option.none, tags := [], parameters := [],
    responses := exResponsesEmpty, requestBody := Option.none, security := [] }

/-- Second, content-differing declaration of `GET /ping` (later file). -/
def exPingB : FEndpoint :=
  { method := "GET", path := .str "/ping", file := "b.py", line := 9,
    function := "ping_b", summary := some (.str "second declaration"),
    description := Option.none, tags := [], parameters := [],
    responses := exResponsesEmpty, requestBody := Option.none, security := [] }

/-- A Flask endpoint whose route path uses the `<int:item_id>` dialect. -/
def exItemsEndpoint : FlaskEndpoint :=
  { method := "GET", path := "/items/<int:item_id>", file := "app.py",
    line := 10, function := "get_item", blueprint := Option.none,
    summary := "Get Item", description := Option.none }

/-- A routed function whose path placeholder argument carries a default:
`@app.get("/items/{item_id}")` over `def get_item(item_id: int = 5)`. -/
def exC3Fun : PyFunctionDef :=
  { name := "get_item", lineno := 4,
    args := [{ arg := "item_id", ann := some (.name "int") }],
    defaults := [.constant (.int 5)],
    decoratorList := [{ expr := (.call (.attr (.name "app") "get")
      [.constant (.str "/items/\x7bitem_id\x7d")] []), lineno := 3 }],
    returns := Option.none }

/-- The placeholder argument of `exC3Fun`. -/
def exC3Arg : PyArg := { arg := "item_id", ann := some (.name "int") }

/-- The decorator `@app.get(dynamic_path)` whose path argument is a
dynamically computed name. -/
def exC4DynDec : PyDecorator :=
  { expr := (.call (.attr (.name "app") "get") [.name "dynamic_path"] []),
    lineno := 2 }

/-- A routed function carrying the dynamically-pathed decorator. -/
def exC4Fun : PyFunctionDef :=
  { name := "dyn_route", lineno := 3, args := [], defaults := [],
    decoratorList := [exC4DynDec],
    returns := Option.none }

/-- A module containing only the dynamically-pathed route. -/
def exC4Module : PyModule :=
  { body := [.funcDef exC4Fun],
    contentLines := ["import app", "decorator line", "def dyn_route():", "    pass"] }

/-- The parsed file for the dynamic-path module. -/
def exC4File : PyFile := { path := "app.py", parsed := .ok exC4Module }

/-- A class decorator `@router(prefix=P)`. -/
def exC5RouterDec (P : String) : PyDecorator :=
  { expr := .call (.name "router") [] [(some "prefix", .constant (.str P))], lineno := 1 }

/-- A routed method `@router.get("/users")`. -/
def exC5Method : PyFunctionDef :=
  { name := "list_users", lineno := 3, args := [], defaults := [],
    decoratorList := [{ expr := (.call (.attr (.name "router") "get")
      [.constant (.str "/users")] []), lineno := 2 }],
    returns := Option.none }

/-- A module whose prefixed class contains the routed method. -/
def exC5ModuleCrash (P : String) : PyModule :=
  { body := [.classDef "UserRoutes" [exC5RouterDec P] [.funcDef exC5Method]],
    contentLines := ["a", "b", "c", "d"] }

/-- A module with the prefixed class and the routed function at top level. -/
def exC5ModuleTop (P : String) : PyModule :=
  { body := [.classDef "UserRoutes" [exC5RouterDec P] [], .funcDef exC5Method],
    contentLines := ["a", "b", "c", "d"] }

/-- Parsed-file wrappers for the two prefix modules. -/
def exC5FileCrash (P : String) : PyFile :=
  { path := "routes.py", parsed := .ok (exC5ModuleCrash P) }

/-- See `exC5FileCrash`. -/
def exC5FileTop (P : String) : PyFile :=
  { path := "routes.py", parsed := .ok (exC5ModuleTop P) }

/-- A recognized route decorator whose first positional argument is the
integer literal `42` (a constant that is not a string). -/
def exC10Dec : PyDecorator :=
  { expr := .call (.attr (.name "app") "get") [.constant (.int 42)] [], lineno := 1 }

/-- A Java method line with an `HttpServletRequest` carrier parameter. -/
def exC7Lines : List String :=
  ["public void handle(HttpServletRequest request, String name) \x7b"]

/-- A Java method line whose only parameter is NAMED like a carrier type. -/
def exC7LinesB : List String := ["public void f(String Model) \x7b"]

/-! # Theorems -/

/-! ## Association-list and aggregation lemmas -/

theorem alistFind?_upsert_self {α : Type} (k : String) (v : α) (l : List (String × α)) :
    alistFind? k (alistUpsert k v l) = some v := by
  induction l with
  | nil => simp [alistUpsert, alistFind?]
  | cons hd t ih =>
    obtain ⟨k₁, v₁⟩ := hd
    by_cases hk : k₁ = k
    · simp [alistUpsert, hk, alistFind?]
    · simp [alistUpsert, hk, alistFind?, ih]

theorem alistFind?_upsert_ne {α : Type} {q k : String} (hne : ¬ k = q) (v : α)
    (l : List (String × α)) :
    alistFind? q (alistUpsert k v l) = alistFind? q l := by
  induction l with
  | nil => simp [alistUpsert, alistFind?, hne]
  | cons hd t ih =>
    obtain ⟨k₁, v₁⟩ := hd
    by_cases hk : k₁ = k
    · subst hk
      simp [alistUpsert, alistFind?, hne, ih]
    · simp [alistUpsert, hk, alistFind?, ih]

theorem alistFind?_getD_bind {α : Type} (o : Option (List (String × α))) (m : String) :
    alistFind? m (o.getD []) = o.bind (alistFind? m) := by
  cases o <;> rfl

theorem buildPaths_snoc {α : Type} (xs : List (String × String × α)) (t : String × String × α) :
    buildPaths (xs ++ [t]) = addOp (buildPaths xs) t.1 t.2.1 t.2.2 := by
  simp [buildPaths, List.foldl_append]

/-- **C1** — corrected.  The aggregation loop of `generate_openapi` keeps, for
every `(path, method)` pair, the operation of the LAST endpoint declaring that
pair: a later differing declaration silently overwrites an earlier one, no
conflict is recorded anywhere (the document has no conflict channel at all),
and byte-identical duplicates also collapse to the single, last-written
entry. -/
theorem c1_aggregation_last_seen_wins {α : Type} (xs : List (String × String × α))
    (p m : String) :
    (alistFind? p (buildPaths xs)).bind (alistFind? m) =
      ((xs.filter fun t => t.1 == p && t.2.1 == m).getLast?).map (fun t => t.2.2) := by
  induction xs using List.reverseRecOn with
  | nil => simp [buildPaths, alistFind?]
  | append_singleton xs t ih =>
    rw [buildPaths_snoc]
    unfold addOp
    by_cases hp : t.1 = p
    · by_cases hm : t.2.1 = m
      · have hq : (t.1 == p && t.2.1 == m) = true := by simp [hp, hm]
        rw [hp, hm, alistFind?_upsert_self, Option.some_bind, alistFind?_upsert_self,
          List.filter_append, List.filter_singleton, hq]
        simp [List.getLast?_append]
      · have hq : (t.1 == p && t.2.1 == m) = false := by simp [hm]
        rw [hp, alistFind?_upsert_self, Option.some_bind, alistFind?_upsert_ne hm,
          alistFind?_getD_bind, ih, List.filter_append, List.filter_singleton, hq]
        simp
    · have hq : (t.1 == p && t.2.1 == m) = false := by simp [hp]
      rw [alistFind?_upsert_ne hp, ih, List.filter_append, List.filter_singleton, hq]
      simp

/-- **C1** counterexample.  Two declarations of `GET /ping` with differing
content: the unified document retains the SECOND one, not the first, and no
conflict is recorded (the claim asserts first-seen retention). -/
theorem c1_firstseen_counterexample :
    (fastapiGenerateOpenapi Option.none [exPingA, exPingB]).map
        (fun doc => ((alistFind? "/ping" doc.paths).bind (alistFind? "get")).map
          (fun op => op.summary)) = some (some "second declaration") ∧
      ¬ (some (some "second declaration") =
          (some (some "first declaration") : Option (Option String))) := by
  constructor
  · rfl
  · decide

/-- **C8** — confirmed.  A file whose parse failed contributes exactly zero
facts: the analyzer run over a file list containing the failing file produces
the same endpoint list as the run without it, and it always completes (the
fold is total; the warning goes to stderr outside this pure model). -/
theorem c8_parse_failure_zero_facts (xs ys : List PyFile) (fp msg : String) :
    fastapiAnalyze (xs ++ ({ path := fp, parsed := .error msg } : PyFile) :: ys) =
      fastapiAnalyze (xs ++ ys) := by
  unfold fastapiAnalyze
  rw [List.foldl_append, List.foldl_append, List.foldl_cons]
  rfl

/-- **C2** — code_bug evaluation.  For the endpoint declared at
`"/items/<int:item_id>"` the emitted document keys the operation by the RAW
Flask path, the canonical path `"/items/{item_id}"` is absent, even though the
conversion (`converted_path`, modelled by `pathNormalize`) is computed — and
then dropped — by the source; the parameter itself is extracted correctly. -/
theorem c2_raw_path_emitted :
    ((flaskGenerateOpenapi Option.none [exItemsEndpoint]).paths.map Prod.fst =
      ["/items/<int:item_id>"]) ∧
    (alistFind? "/items/\x7bitem_id\x7d"
      (flaskGenerateOpenapi Option.none [exItemsEndpoint]).paths = Option.none) ∧
    (pathNormalize "/items/<int:item_id>" = "/items/\x7bitem_id\x7d") ∧
    (((alistFind? "/items/<int:item_id>"
        (flaskGenerateOpenapi Option.none [exItemsEndpoint]).paths).bind
          (alistFind? "get")).map (fun op => op.parameters) =
      some (some [(⟨"item_id", "path", true,
        .node "integer" Option.none false Option.none⟩ : ApiParam)])) :=
  ⟨rfl, rfl, rfl, rfl⟩

/-- **C7** — code_bug evaluation.  The signature filter tests the parameter
NAME against the carrier TYPE names: `HttpServletRequest request` survives
into the parameter list (first conjunct), while an ordinary parameter that
merely happens to be NAMED `Model` is dropped (second conjunct). -/
theorem c7_carrier_not_filtered :
    ((parseMethodSignatureParams exC7Lines).map (fun p => (p.type, p.name)) =
      [("HttpServletRequest", "request"), ("String", "name")]) ∧
    parseMethodSignatureParams exC7LinesB = [] :=
  ⟨rfl, rfl⟩

/-- **C6** counterexample.  A method path without a leading slash is joined
with NO separating slash at all: the composition is not "concatenation with
exactly one separating slash". -/
theorem c6_join_counterexample :
    springFullPath (some "/api/v1") "widgets" = "/api/v1widgets" ∧
      ¬ ("/api/v1widgets" = "/api/v1" ++ "/" ++ "widgets") :=
  ⟨rfl, by decide⟩

theorem head?_dropWhile_false {p : Char → Bool} :
    ∀ (l : List Char) {c : Char}, ((l.dropWhile p).head? = some c) → p c = false := by
  intro l
  induction l with
  | nil => intro c h; simp [List.dropWhile] at h
  | cons a t ih =>
    intro c h
    by_cases hp : p a
    · rw [List.dropWhile_cons, if_pos hp] at h
      exact ih h
    · rw [List.dropWhile_cons, if_neg hp] at h
      simp only [List.head?_cons, Option.some.injEq] at h
      rw [← h]
      exact Bool.eq_false_iff.mpr hp

theorem rstrip_getLast_ne_slash (s : String) :
    ((rstripSlashes s).toList.getLast? == some '/') = false := by
  show ((((s.toList.reverse.dropWhile (· == '/'))).reverse.getLast? == some '/')) = false
  rw [List.getLast?_reverse]
  cases hx : (s.toList.reverse.dropWhile (· == '/')).head? with
  | none => rfl
  | some c => exact head?_dropWhile_false _ hx

/-- **C6** — amended.  The composition is: base with ALL trailing slashes
stripped, then the method path appended verbatim.  Since the stripped base
never ends in a slash, a method path with a leading slash yields exactly one
separating slash at the junction (the spec example holds); a method path
without a leading slash gets no separator, and slashes inside the method path
are preserved uncollapsed. -/
theorem c6_base_path_join (b tail : String) :
    springFullPath (some ("/" ++ b)) ("/" ++ tail)
        = rstripSlashes ("/" ++ b) ++ "/" ++ tail ∧
      ((rstripSlashes ("/" ++ b)).toList.getLast? == some '/') = false ∧
      springFullPath (some "/api/v1") "/widgets" = "/api/v1/widgets" := by
  refine ⟨?_, rstrip_getLast_ne_slash _, rfl⟩
  have hne : ("/" ++ b) ≠ "" := by
    intro h
    have hlen := congrArg String.length h
    rw [String.length_append, show "/".length = 1 from rfl,
      show "".length = 0 from rfl] at hlen
    omega
  show (if (("/" ++ b) == "") = true then "/" ++ tail
      else rstripSlashes ("/" ++ b) ++ ("/" ++ tail)) =
    rstripSlashes ("/" ++ b) ++ "/" ++ tail
  rw [if_neg (by simp [hne]), String.append_assoc]

/-- **C10** counterexample.  `@app.get(42)` is a recognized route decorator
whose first positional argument is a literal constant but NOT a string; the
parsed endpoint keeps the integer 42 as its path instead of the claimed
default "/". -/
theorem c10_nonstring_constant_counterexample :
    (parseRouteDecorator [] exC10Dec).method = "GET" ∧
      (parseRouteDecorator [] exC10Dec).path = .int 42 ∧
      ¬ ((PyConst.int 42) = .str "/") :=
  ⟨rfl, rfl, by decide⟩

/-- **C10** — amended.  The parsed path is the first positional argument's
value whenever that argument is a literal constant of ANY type (taken
verbatim, string or not), and the default "/" exactly otherwise (absent or
non-constant first argument); the decorator is still emitted either way. -/
theorem c10_path_characterization (lines : List String) (func : PyExpr)
    (args : List PyExpr) (kws : List (Option String × PyExpr)) (ln : Nat) :
    (parseRouteDecorator lines { expr := .call func args kws, lineno := ln }).path =
      (match args with
        | .constant v :: _ => v
        | _ => .str "/") := by
  cases args with
  | nil => rfl
  | cons a rest => cases a <;> rfl

/-- **C5** — code_bug evaluation.  For ANY prefix string `P`: a module whose
`@router(prefix=P)`-decorated class contains a routed method contributes ZERO
endpoints (the visitor hits the `AttributeError` of
`_extract_router_prefix(node)` on a `FunctionDef`, caught per file); and a
top-level routed function next to the prefixed class is emitted with the bare
decorator path `"/users"` — the stored prefix is never prepended anywhere. -/
theorem c5_router_pref_never_applied (P : String) :
    fastapiAnalyze [exC5FileCrash P] = [] ∧
      (fastapiAnalyze [exC5FileTop P]).map (fun e => e.path) = [.str "/users"] :=
  ⟨rfl, rfl⟩

theorem argInDefaults_eq_false (f : PyFunctionDef) (n : String) :
    argInDefaults f n = false := by
  simp [argInDefaults, pyArgEqStr]

/-- **C3** — confirmed.  Every non-`self`/`cls` function argument whose name
occurs as a `{name}` placeholder in some decorator's literal path yields a
parameter with location "path" and `required = true` — in particular also when
the argument carries a default value, because the defaults membership test of
`_extract_parameters` compares a string against `ast.arg` dict keys and is
therefore always false (see `pyArgEqStr`), so the else-branch sets
`required = True` unconditionally. -/
theorem c3_path_placeholder_required (f : PyFunctionDef) (a : PyArg)
    (hmem : a ∈ f.args)
    (hself : (a.arg == "self" || a.arg == "cls") = false)
    (hpath : hasPathPlaceholder f a.arg = true) :
    ∃ p ∈ extractParameters f, p.name = a.arg ∧ p.inLoc = "path" ∧ p.required = true := by
  obtain ⟨h1, h2⟩ := Bool.or_eq_false_iff.mp hself
  refine ⟨paramOfArg f a, ?_, rfl, ?_, ?_⟩
  · exact List.mem_filterMap.mpr ⟨a, hmem, by simp [hself]⟩
  · show (if hasPathPlaceholder f a.arg then "path" else "query") = "path"
    simp [hpath]
  · show (if argInDefaults f a.arg then false
      else if !(a.arg == "self") && !(a.arg == "cls") then true
      else hasPathPlaceholder f a.arg) = true
    simp [argInDefaults_eq_false, h1, h2]

/-- Witness for C3: `@app.get("/items/{item_id}")` over
`def get_item(item_id: int = 5)` — the placeholder argument DOES carry a
default, and the emitted parameter is still `in="path"`, `required=true`. -/
theorem c3_path_placeholder_required_witness :
    ∃ p ∈ extractParameters exC3Fun,
      p.name = exC3Arg.arg ∧ p.inLoc = "path" ∧ p.required = true :=
  c3_path_placeholder_required exC3Fun exC3Arg (by simp [exC3Fun, exC3Arg]) rfl rfl

/-- **C4** counterexample.  The dynamically-pathed route `@app.get(dynamic_path)`
is NOT excluded: the analyzer emits an endpoint with path "/" and the emitted
document lists it under the root path. -/
theorem c4_nonliteral_not_excluded :
    ((fastapiAnalyze [exC4File]).map (fun e => e.path) = [.str "/"]) ∧
      ((fastapiGenerateOpenapi Option.none (fastapiAnalyze [exC4File])).map
        (fun doc => doc.paths.map Prod.fst) = some ["/"]) :=
  ⟨rfl, rfl⟩

/-- **C4** — amended.  A recognized route whose first positional argument is
absent or not a literal constant is NOT excluded and raises no error: the
visitor appends an endpoint for it (at top level), and its path falls back to
the default "/". -/
theorem c4_nonliteral_emitted_with_root (lines : List String) (fp : String)
    (st : VState) (f : PyFunctionDef) (d : PyDecorator) (func : PyExpr)
    (args : List PyExpr) (kws : List (Option String × PyExpr))
    (hclass : pyTruthyStrO st.currentClass = false)
    (hroute : getRouteDecorator f = some d)
    (hexpr : d.expr = .call func args kws)
    (hhead : ∀ v rest, ¬ args = .constant v :: rest) :
    visitStmt lines fp st (.funcDef f) =
      Except.ok { st with endpoints := st.endpoints ++ [mkEndpoint lines fp f d] } ∧
    (mkEndpoint lines fp f d).path = .str "/" := by
  constructor
  · simp only [visitStmt, hroute, hclass]
    rfl
  · show (parseRouteDecorator lines d).path = .str "/"
    unfold parseRouteDecorator
    rw [hexpr]
    cases args with
    | nil => rfl
    | cons a rest =>
      cases a with
      | constant v => exact absurd rfl (hhead v rest)
      | name i => rfl
      | attr v₁ n₁ => rfl
      | listE l₁ => rfl
      | subscript v₁ s₁ => rfl
      | call f₁ a₁ k₁ => rfl

/-- Witness for C4-amended at the concrete dynamic-path module. -/
theorem c4_nonliteral_emitted_with_root_witness :
    visitStmt exC4Module.contentLines "app.py" initVState (.funcDef exC4Fun) =
      Except.ok { initVState with endpoints := initVState.endpoints ++
        [mkEndpoint exC4Module.contentLines "app.py" exC4Fun exC4DynDec] } ∧
    (mkEndpoint exC4Module.contentLines "app.py" exC4Fun exC4DynDec).path = .str "/" :=
  c4_nonliteral_emitted_with_root _ _ _ _ _ _ _ _ rfl rfl rfl
    (fun v rest h => by injection h with h1 _; exact PyExpr.noConfusion h1)

/-! ## Lemmas about the Flask placeholder scan, leading to idempotence (C9) -/

theorem length_dropWhile_le (p : Char → Bool) (l : List Char) :
    (l.dropWhile p).length ≤ l.length := by
  induction l with
  | nil => simp
  | cons a t ih =>
    rw [List.dropWhile_cons]
    by_cases hp : p a
    · rw [if_pos hp]; simp; omega
    · rw [if_neg hp]

theorem length_tail_le (l : List Char) : l.tail.length ≤ l.length := by
  rw [List.length_tail]; exact Nat.sub_le _ _

theorem flaskMatchAt_len_le {rest w1 w2 r : List Char}
    (h : flaskMatchAt rest = some (w1, w2, r)) : r.length ≤ rest.length := by
  unfold flaskMatchAt at h
  by_cases h1 : (rest.takeWhile isWordChar).isEmpty
  · rw [if_pos h1] at h; exact Option.noConfusion h
  · rw [if_neg h1] at h
    by_cases h2 : (rest.dropWhile isWordChar).head? = some '>'
    · rw [if_pos h2] at h
      injection h with h'
      injection h' with ha hbc
      injection hbc with hb hcr
      rw [← hcr]
      exact le_trans (length_tail_le _) (length_dropWhile_le _ _)
    · rw [if_neg h2] at h
      by_cases h3 : (rest.dropWhile isWordChar).head? = some ':'
      · rw [if_pos h3] at h
        by_cases h4 :
            (((rest.dropWhile isWordChar).tail).dropWhile isWordChar).head? = some '>'
        · rw [if_pos h4] at h
          injection h with h'
          injection h' with ha hbc
          injection hbc with hb hcr
          rw [← hcr]
          refine le_trans (length_tail_le _) (le_trans (length_dropWhile_le _ _) ?_)
          exact le_trans (length_tail_le _) (length_dropWhile_le _ _)
        · rw [if_neg h4] at h; exact Option.noConfusion h
      · rw [if_neg h3] at h; exact Option.noConfusion h

theorem flaskMatchAt_w2_word {rest w1 w2 r : List Char}
    (h : flaskMatchAt rest = some (w1, w2, r)) : ∀ x ∈ w2, isWordChar x = true := by
  unfold flaskMatchAt at h
  by_cases h1 : (rest.takeWhile isWordChar).isEmpty
  · rw [if_pos h1] at h; exact Option.noConfusion h
  · rw [if_neg h1] at h
    by_cases h2 : (rest.dropWhile isWordChar).head? = some '>'
    · rw [if_pos h2] at h
      injection h with h'
      injection h' with ha hbc
      injection hbc with hb hcr
      rw [← hb]
      intro x hx
      simp at hx
    · rw [if_neg h2] at h
      by_cases h3 : (rest.dropWhile isWordChar).head? = some ':'
      · rw [if_pos h3] at h
        by_cases h4 :
            (((rest.dropWhile isWordChar).tail).dropWhile isWordChar).head? = some '>'
        · rw [if_pos h4] at h
          injection h with h'
          injection h' with ha hbc
          injection hbc with hb hcr
          rw [← hb]
          intro x hx
          exact List.mem_takeWhile_imp hx
        · rw [if_neg h4] at h; exact Option.noConfusion h
      · rw [if_neg h3] at h; exact Option.noConfusion h

theorem flaskSubAux_congr : ∀ (f₁ f₂ : Nat) (s : List Char),
    s.length ≤ f₁ → s.length ≤ f₂ → flaskSubAux f₁ s = flaskSubAux f₂ s := by
  intro f₁
  induction f₁ with
  | zero =>
    intro f₂ s h₁ _
    have hs : s = [] := List.eq_nil_of_length_eq_zero (Nat.le_zero.mp h₁)
    subst hs
    cases f₂ <;> rfl
  | succ n ih =>
    intro f₂ s h₁ h₂
    cases s with
    | nil => cases f₂ <;> rfl
    | cons c rest =>
      cases f₂ with
      | zero => simp [List.length_cons] at h₂
      | succ g =>
        have hr : rest.length ≤ n := by simp [List.length_cons] at h₁; omega
        have hg : rest.length ≤ g := by simp [List.length_cons] at h₂; omega
        show flaskSubAux (n + 1) (c :: rest) = flaskSubAux (g + 1) (c :: rest)
        unfold flaskSubAux
        by_cases hc : c = '<'
        · rw [if_pos hc, if_pos hc]
          cases hm : flaskMatchAt rest with
          | none =>
            dsimp only
            rw [ih g rest hr hg]
          | some trip =>
            obtain ⟨w1, w2, r⟩ := trip
            dsimp only
            have hrl := flaskMatchAt_len_le hm
            rw [ih g r (le_trans hrl hr) (le_trans hrl hg)]
        · rw [if_neg hc, if_neg hc, ih g rest hr hg]

theorem subL_cons_ne {c : Char} (t : List Char) (hc : ¬ c = '<') :
    subL (c :: t) = c :: subL t := by
  show flaskSubAux (t.length + 1) (c :: t) = c :: subL t
  unfold flaskSubAux
  rw [if_neg hc]
  rfl

theorem subL_cons_match {t w1 w2 r : List Char} (h : flaskMatchAt t = some (w1, w2, r)) :
    subL ('<' :: t) = '\x7b' :: (w2 ++ '\x7d' :: subL r) := by
  show flaskSubAux (t.length + 1) ('<' :: t) = _
  unfold flaskSubAux
  rw [if_pos rfl, h]
  dsimp only
  rw [flaskSubAux_congr t.length r.length r (flaskMatchAt_len_le h) le_rfl]
  rfl

theorem subL_cons_nomatch {t : List Char} (h : flaskMatchAt t = Option.none) :
    subL ('<' :: t) = '<' :: subL t := by
  show flaskSubAux (t.length + 1) ('<' :: t) = '<' :: subL t
  unfold flaskSubAux
  rw [if_pos rfl, h]
  rfl

theorem isWordChar_ne_lt {c : Char} (h : isWordChar c = true) : ¬ c = '<' := by
  intro he
  subst he
  exact absurd h (by decide)

theorem subL_word_append (w t : List Char) (hw : ∀ c ∈ w, isWordChar c = true) :
    subL (w ++ t) = w ++ subL t := by
  induction w with
  | nil => rfl
  | cons c w' ih =>
    have hc : ¬ c = '<' := isWordChar_ne_lt (hw c (List.mem_cons_self c w'))
    rw [List.cons_append, subL_cons_ne _ hc,
      ih (fun x hx => hw x (List.mem_cons_of_mem c hx)), List.cons_append]

theorem takeWhile_word_append (w t : List Char) (hw : ∀ c ∈ w, isWordChar c = true)
    (ht : ∀ c, t.head? = some c → isWordChar c = false) :
    (w ++ t).takeWhile isWordChar = w := by
  induction w with
  | nil =>
    cases t with
    | nil => rfl
    | cons c ts => simp [List.takeWhile_cons, ht c rfl]
  | cons c w' ih =>
    simp [List.takeWhile_cons, hw c (List.mem_cons_self c w'),
      ih (fun x hx => hw x (List.mem_cons_of_mem c hx))]

theorem dropWhile_word_append (w t : List Char) (hw : ∀ c ∈ w, isWordChar c = true)
    (ht : ∀ c, t.head? = some c → isWordChar c = false) :
    (w ++ t).dropWhile isWordChar = t := by
  induction w with
  | nil =>
    cases t with
    | nil => rfl
    | cons c ts => simp [List.dropWhile_cons, ht c rfl]
  | cons c w' ih =>
    simp [List.dropWhile_cons, hw c (List.mem_cons_self c w'),
      ih (fun x hx => hw x (List.mem_cons_of_mem c hx))]

theorem subL_head_spec (t : List Char) :
    (t = [] ∧ subL t = []) ∨
      ∃ c c' r', t.head? = some c ∧ subL t = c' :: r' ∧
        (isWordChar c = false → isWordChar c' = false) ∧
        ((c' = '>') ↔ (c = '>')) ∧ ((c' = ':') ↔ (c = ':')) := by
  cases t with
  | nil => exact Or.inl ⟨rfl, rfl⟩
  | cons c rest =>
    right
    by_cases hc : c = '<'
    · subst hc
      cases hm : flaskMatchAt rest with
      | none =>
        exact ⟨'<', '<', subL rest, rfl, subL_cons_nomatch hm, fun h => h, Iff.rfl, Iff.rfl⟩
      | some trip =>
        obtain ⟨w1, w2, r⟩ := trip
        refine ⟨'<', '\x7b', w2 ++ '\x7d' :: subL r, rfl, subL_cons_match hm, ?_, ?_, ?_⟩
        · intro _; decide
        · constructor <;> intro h <;> exact absurd h (by decide)
        · constructor <;> intro h <;> exact absurd h (by decide)
    · exact ⟨c, c, subL rest, rfl, subL_cons_ne rest hc, fun h => h, Iff.rfl, Iff.rfl⟩

theorem subL_head_nonword (t : List Char)
    (ht : ∀ c, t.head? = some c → isWordChar c = false) :
    ∀ c', (subL t).head? = some c' → isWordChar c' = false := by
  intro c' h
  rcases subL_head_spec t with ⟨-, h2⟩ | ⟨c, c'', r', hc, hs, himp, -, -⟩
  · rw [h2] at h; simp at h
  · rw [hs] at h
    simp only [List.head?_cons, Option.some.injEq] at h
    rw [← h]
    exact himp (ht c hc)

theorem subL_head_gt (t : List Char) (hne : ¬ t.head? = some '>') :
    ¬ (subL t).head? = some '>' := by
  intro h
  rcases subL_head_spec t with ⟨-, h2⟩ | ⟨c, c'', r', hc, hs, -, hgt, -⟩
  · rw [h2] at h; simp at h
  · rw [hs] at h
    simp only [List.head?_cons, Option.some.injEq] at h
    exact hne (by rw [hc, hgt.mp h])

theorem flaskMatchAt_none_subL (rest : List Char) (h : flaskMatchAt rest = Option.none) :
    flaskMatchAt (subL rest) = Option.none := by
  cases rest with
  | nil => rfl
  | cons c ts =>
    by_cases hword : isWordChar c = true
    · -- head is a word character: the first group is nonempty on both sides
      unfold flaskMatchAt at h
      have hw1ne : ((c :: ts).takeWhile isWordChar).isEmpty = false := by
        simp [List.takeWhile_cons, hword]
      rw [if_neg (by simp [hw1ne])] at h
      have hw1w : ∀ x ∈ (c :: ts).takeWhile isWordChar, isWordChar x = true :=
        fun x hx => List.mem_takeWhile_imp hx
      have hr1h : ∀ x, ((c :: ts).dropWhile isWordChar).head? = some x →
          isWordChar x = false := fun x hx => head?_dropWhile_false _ hx
      have hsub : subL (c :: ts) =
          (c :: ts).takeWhile isWordChar ++ subL ((c :: ts).dropWhile isWordChar) := by
        conv_lhs => rw [← List.takeWhile_append_dropWhile isWordChar (c :: ts)]
        exact subL_word_append _ _ hw1w
      have hsubr1 : ∀ x, (subL ((c :: ts).dropWhile isWordChar)).head? = some x →
          isWordChar x = false := subL_head_nonword _ hr1h
      rw [hsub]
      unfold flaskMatchAt
      rw [takeWhile_word_append _ _ hw1w hsubr1, dropWhile_word_append _ _ hw1w hsubr1]
      rw [if_neg (by simp [hw1ne])]
      by_cases hgt : ((c :: ts).dropWhile isWordChar).head? = some '>'
      · rw [if_pos hgt] at h
        exact Option.noConfusion h
      · rw [if_neg hgt] at h
        rw [if_neg (subL_head_gt _ hgt)]
        by_cases hcolon : ((c :: ts).dropWhile isWordChar).head? = some ':'
        · rw [if_pos hcolon] at h
          obtain ⟨r2, hr2⟩ : ∃ r2, (c :: ts).dropWhile isWordChar = ':' :: r2 := by
            cases hx : (c :: ts).dropWhile isWordChar with
            | nil => rw [hx] at hcolon; simp at hcolon
            | cons y ys =>
              rw [hx] at hcolon
              simp only [List.head?_cons, Option.some.injEq] at hcolon
              exact ⟨ys, by rw [hcolon]⟩
          by_cases hinner :
              ((((c :: ts).dropWhile isWordChar).tail).dropWhile isWordChar).head? = some '>'
          · rw [if_pos hinner] at h
            exact Option.noConfusion h
          · have hsubr1c : subL ((c :: ts).dropWhile isWordChar) = ':' :: subL r2 := by
              rw [hr2]
              exact subL_cons_ne _ (by decide)
            rw [if_pos (by rw [hsubr1c]; rfl)]
            have htl : (subL ((c :: ts).dropWhile isWordChar)).tail = subL r2 := by
              rw [hsubr1c]
              rfl
            rw [htl]
            have hw2w : ∀ x ∈ r2.takeWhile isWordChar, isWordChar x = true :=
              fun x hx => List.mem_takeWhile_imp hx
            have hr3h : ∀ x, (r2.dropWhile isWordChar).head? = some x →
                isWordChar x = false := fun x hx => head?_dropWhile_false _ hx
            have hsub2 : subL r2 =
                r2.takeWhile isWordChar ++ subL (r2.dropWhile isWordChar) := by
              conv_lhs => rw [← List.takeWhile_append_dropWhile isWordChar r2]
              exact subL_word_append _ _ hw2w
            have hsubr3 : ∀ x, (subL (r2.dropWhile isWordChar)).head? = some x →
                isWordChar x = false := subL_head_nonword _ hr3h
            rw [hsub2, dropWhile_word_append _ _ hw2w hsubr3]
            have hr3gt : ¬ (r2.dropWhile isWordChar).head? = some '>' := by
              rw [hr2] at hinner
              simpa using hinner
            rw [if_neg (subL_head_gt _ hr3gt)]
        · have hnc : ¬ (subL ((c :: ts).dropWhile isWordChar)).head? = some ':' := by
            intro hx
            rcases subL_head_spec ((c :: ts).dropWhile isWordChar) with
              ⟨-, h2⟩ | ⟨c₀, c'', r', hc₀, hs2, -, -, hcol⟩
            · rw [h2] at hx; simp at hx
            · rw [hs2] at hx
              simp only [List.head?_cons, Option.some.injEq] at hx
              exact hcolon (by rw [hc₀, hcol.mp hx])
          rw [if_neg hnc]
    · -- head is not a word character: no match possible on either side
      have hcf : isWordChar c = false := by
        revert hword
        cases isWordChar c <;> simp
      rcases subL_head_spec (c :: ts) with ⟨habs, -⟩ | ⟨c₀, c', r', hc₀, hs, himp, -, -⟩
      · exact absurd habs (by simp)
      · have hc₀c : c = c₀ := by simpa using hc₀
        have hcw : isWordChar c' = false := himp (by rw [← hc₀c]; exact hcf)
        rw [hs]
        unfold flaskMatchAt
        rw [if_pos (by simp [List.takeWhile_cons, hcw])]

theorem subL_idem (s : List Char) : subL (subL s) = subL s := by
  suffices H : ∀ (n : Nat) (s : List Char), s.length ≤ n → subL (subL s) = subL s from
    H s.length s le_rfl
  intro n
  induction n with
  | zero =>
    intro s h
    have hs : s = [] := List.eq_nil_of_length_eq_zero (Nat.le_zero.mp h)
    subst hs
    rfl
  | succ n ih =>
    intro s hs
    cases s with
    | nil => rfl
    | cons c t =>
      have ht : t.length ≤ n := by simp [List.length_cons] at hs; omega
      by_cases hc : c = '<'
      · subst hc
        cases hm : flaskMatchAt t with
        | none =>
          rw [subL_cons_nomatch hm, subL_cons_nomatch (flaskMatchAt_none_subL t hm),
            ih t ht]
        | some trip =>
          obtain ⟨w1, w2, r⟩ := trip
          have hw2 := flaskMatchAt_w2_word hm
          have hr : r.length ≤ n := le_trans (flaskMatchAt_len_le hm) ht
          rw [subL_cons_match hm, subL_cons_ne _ (by decide),
            subL_word_append w2 _ hw2, subL_cons_ne _ (by decide), ih r hr]
      · rw [subL_cons_ne t hc, subL_cons_ne (subL t) hc, ih t ht]

/-- **C9** — confirmed.  The path-placeholder normalization of the Flask
analyzer (the conversion of `<type:name>` / `<name>` to `{name}`, i.e. the
`re.sub(r'<(\w+):?(\w+)?>', r'{\2}', path)` of line 225) is idempotent:
normalizing an already-normalized template changes nothing, because a
substituted `{...}` block can never take part in a later match and removal of
a match never joins its neighbourhoods into a new match. -/
theorem c9_normalize_idempotent (p : String) :
    pathNormalize (pathNormalize p) = pathNormalize p := by
  show (⟨subL (String.toList ⟨subL p.toList⟩)⟩ : String) = ⟨subL p.toList⟩
  rw [show String.toList ⟨subL p.toList⟩ = subL p.toList from rfl, subL_idem]
